import Mathlib

/-!
# Pinnacle HTTP server: start-up sequence and address discovery

A shallow embedding of `src/main.cpp` (`main`) and `src/socket/socketUtils.cpp`
(`exec`, `SocketUtils::IPv4Address`, `SocketUtils::getMachineIPv4Address`).

Conventions of the embedding:

* a byte is a `Nat`; a C string is the run of bytes before the first `0`;
* an allocation is the list of its bytes; a pointer into it is an offset;
* the contents of freshly allocated memory (`new char[4096]`, `malloc`) are
  not chosen by the program, so they are an argument of the model;
* an access outside an allocation or through a null pointer is a `Fault`, and
  so is `delete[]` of a pointer other than the one `new[]` returned;
* the results of the calls whose bodies are not part of the two source files
  (`getMainArguments`, `createSocket`, `__database_init__`, `bindServer`,
  `listen`, `__SERVER_INIT__`) are fields of an environment `Env`;
* the host is little-endian (the program targets Ubuntu 22.04 on x86).
-/

namespace Pinnacle

/-! ## Memory model -/

/-- Undefined behaviour that the embedding makes explicit. -/
inductive Fault
  | nullDeref
  | heapOverflow
  | readPastBuffer
  | invalidDelete
  | outOfFuel
deriving DecidableEq, Repr

deriving instance DecidableEq for Except

/-- Bytes of an ASCII string literal. -/
def bytes (s : String) : List Nat := s.toList.map Char.toNat

/-! ## C library functions used by the program -/

/-- C `strlen`: number of bytes before the first NUL of the buffer. -/
def strlen (s : List Nat) : Nat := (s.takeWhile (fun c => c != 0)).length

/-- The bytes `strncpy(dst, src, n)` stores: the first `n` bytes of the C
string in `src`, padded with NUL up to `n` bytes. -/
def strncpyBytes (src : List Nat) (n : Nat) : List Nat :=
  let s := (src.takeWhile (fun c => c != 0)).take n
  s ++ List.replicate (n - s.length) 0

/-- C `strncpy(mem + off, src, n)` on an allocation `mem`: writes exactly `n`
bytes at offsets `off .. off + n - 1`; a write past the allocation is a fault. -/
def strncpy (mem : List Nat) (off : Nat) (src : List Nat) (n : Nat) :
    Except Fault (List Nat) :=
  if off + n ≤ mem.length then
    .ok (mem.take off ++ strncpyBytes src n ++ mem.drop (off + n))
  else .error .heapOverflow

/-- Scan of `strstr`: `l` is the allocation from the current position `i` on.
The needle holds no NUL, so a match lies before the terminator. -/
def strstrFrom (needle : List Nat) : List Nat → Nat → Except Fault (Option Nat)
  | [], _ => .error .readPastBuffer
  | c :: cs, i =>
    if needle.isPrefixOf (c :: cs) then .ok (some i)
    else if c = 0 then .ok none
    else strstrFrom needle cs (i + 1)

/-- C `strstr(mem + off, needle)`; the pointer returned is an offset in `mem`. -/
def strstr (mem : List Nat) (off : Nat) (needle : List Nat) : Except Fault (Option Nat) :=
  strstrFrom needle (mem.drop off) off

/-- Scan of `strchr` for a non-NUL character `ch`. -/
def strchrFrom (ch : Nat) : List Nat → Nat → Except Fault (Option Nat)
  | [], _ => .error .readPastBuffer
  | c :: cs, i =>
    if c = ch then .ok (some i)
    else if c = 0 then .ok none
    else strchrFrom ch cs (i + 1)

/-- C `strchr(mem + off, ch)`; the pointer returned is an offset in `mem`. -/
def strchr (mem : List Nat) (off : Nat) (ch : Nat) : Except Fault (Option Nat) :=
  strchrFrom ch (mem.drop off) off

/-- C `tolower` on ASCII. -/
def tolower (c : Nat) : Nat := if 65 ≤ c ∧ c ≤ 90 then c + 32 else c

/-- C `strcasecmp` on two C strings given by their bytes before the NUL. -/
def strcasecmp : List Nat → List Nat → Int
  | [], [] => 0
  | [], b :: _ => 0 - (tolower b : Int)
  | a :: _, [] => (tolower a : Int)
  | a :: as, b :: bs =>
    if tolower a = tolower b then strcasecmp as bs
    else (tolower a : Int) - (tolower b : Int)

/-- C `htons` on a little-endian host; the `int` argument is converted to
`uint16_t` first, which keeps its low 16 bits. -/
def htons (port : Int) : Nat :=
  let p := (port % 65536).toNat
  (p % 256) * 256 + p / 256

/-- State of the dotted-quad scanner of `inet_pton`: the octets completed, the
octet being read, and whether a digit of it has been seen. -/
structure QuadState where
  done : List Nat
  cur : Nat
  sawDigit : Bool
deriving DecidableEq, Repr

/-- One character of the `inet_pton(AF_INET, ..)` scanner; `none` is a
rejected string. -/
def quadStep (st : QuadState) (ch : Nat) : Option QuadState :=
  if 48 ≤ ch ∧ ch ≤ 57 then
    let new := st.cur * 10 + (ch - 48)
    if st.sawDigit ∧ st.cur = 0 then none
    else if new > 255 then none
    else if ¬ st.sawDigit ∧ st.done.length + 1 > 4 then none
    else some { st with cur := new, sawDigit := true }
  else if ch = 46 ∧ st.sawDigit then
    if st.done.length + 1 = 4 then none
    else some { done := st.done ++ [st.cur], cur := 0, sawDigit := false }
  else none

/-- Run of the scanner over the string. -/
def quadScan : List Nat → QuadState → Option QuadState
  | [], st => some st
  | ch :: cs, st =>
    match quadStep st ch with
    | none => none
    | some st' => quadScan cs st'

/-- C `inet_pton(AF_INET, src, dst)`: `some a` when it returns 1 and stores
the address, whose four bytes in memory read as the `uint32_t` value `a` on a
little-endian host; `none` when it returns 0 and leaves `dst` untouched. -/
def inet_pton (src : List Nat) : Option Nat :=
  match quadScan (src.takeWhile (fun c => c != 0)) ⟨[], 0, false⟩ with
  | none => none
  | some st =>
    if st.sawDigit then
      match st.done ++ [st.cur] with
      | [b0, b1, b2, b3] => some (b0 + 256 * b1 + 65536 * b2 + 16777216 * b3)
      | _ => none
    else none

/-! ## `exec` (socketUtils.cpp, lines 11-38) -/

/-- The read end of the pipe: the bytes not yet read and the end-of-file
indicator that `feof` tests. -/
structure Pipe where
  rest : List Nat
  eof : Bool
deriving DecidableEq, Repr

/-- The character loop of `fgets`: reads at most `k` more characters and stops
after a newline; reading at the end of the data sets the end-of-file
indicator. Result: characters read, data left, indicator set. -/
def fgetsLoop : Nat → List Nat → List Nat × List Nat × Bool
  | 0, s => ([], s, false)
  | _ + 1, [] => ([], [], true)
  | k + 1, c :: s =>
    if c = 10 then ([c], s, false)
    else
      let r := fgetsLoop k s
      (c :: r.1, r.2.1, r.2.2)

/-- C `fgets(buffer, n, pipe)`: `none` is the null return (nothing read);
otherwise the buffer holds the characters read followed by a NUL. -/
def fgets (n : Nat) (p : Pipe) : Option (List Nat) × Pipe :=
  let r := fgetsLoop (n - 1) p.rest
  let p' : Pipe := ⟨r.2.1, p.eof || r.2.2⟩
  if r.1 = [] then (none, p') else (some (r.1 ++ [0]), p')

/-- Capacity of the result buffer of `exec`: `new char[4096]`. -/
def RESULT_SIZE : Nat := 4096

/-- The allocation `new char[4096]` with its initial contents `heap`. -/
def newResult (heap : Nat → Nat) : List Nat := (List.range RESULT_SIZE).map heap

/-- The `while (!feof(pipe))` loop of `exec`, with the values of `result` and
`totalSize` as state. -/
def execLoop : Nat → Pipe → List Nat → Nat → Except Fault (List Nat × Nat)
  | 0, _, _, _ => .error .outOfFuel
  | fuel + 1, pipe, result, totalSize =>
    if pipe.eof then .ok (result, totalSize)
    else
      match fgets 128 pipe with
      | (some buffer, pipe') =>
        let len := strlen buffer
        match strncpy result totalSize buffer len with
        | .error e => .error e
        | .ok result' => execLoop fuel pipe' result' (totalSize + len)
      | (none, pipe') => execLoop fuel pipe' result totalSize

/-- `exec(cmd)`: `popen` is `none` when the command could not be started and
the bytes the command prints otherwise. The value is the null pointer or the
contents of the 4096-byte result buffer together with the final `totalSize`. -/
def exec (popen : Option (List Nat)) (heap : Nat → Nat) :
    Except Fault (Option (List Nat × Nat)) :=
  match popen with
  | none => .ok none
  | some out =>
    match execLoop (out.length + 2) ⟨out, false⟩ (newResult heap) 0 with
    | .error e => .error e
    | .ok r => .ok (some r)

/-! ## `SocketUtils::getMachineIPv4Address` (socketUtils.cpp, lines 70-95) -/

/-- The marker `"inet "`. -/
def inetMarker : List Nat := [105, 110, 101, 116, 32]

/-- Value of `getMachineIPv4Address`: `none` is the null return; `some (pos, s)`
is the returned pointer, as an offset in the buffer of `exec`, and the C string
it points to once `*end` has been set to NUL. -/
def getMachineIPv4Address (popen : Option (List Nat)) (heap : Nat → Nat) :
    Except Fault (Option (Nat × List Nat)) :=
  match exec popen heap with
  | .error e => .error e
  | .ok none => .error .nullDeref
  | .ok (some (ifconfigOutput, _)) =>
    match strstr ifconfigOutput 0 inetMarker with
    | .error e => .error e
    | .ok none => .ok none
    | .ok (some pos) =>
      match strstr ifconfigOutput (pos + 1) inetMarker with
      | .error e => .error e
      | .ok none => .ok none
      | .ok (some pos) =>
        let pos := pos + 5
        match strchr ifconfigOutput pos 32 with
        | .error e => .error e
        | .ok none => .ok none
        | .ok (some e) => .ok (some (pos, (ifconfigOutput.drop pos).take (e - pos)))


/-! ## `SocketUtils::IPv4Address` (socketUtils.cpp, lines 47-63) -/

/-- The fields of `struct sockaddr_in` the program uses; `sin_addr` is
`sin_addr.s_addr`. -/
structure SockaddrIn where
  sin_family : Nat
  sin_port : Nat
  sin_addr : Nat
deriving DecidableEq, Repr

/-- Address family constant of `<sys/socket.h>`. -/
def AF_INET : Nat := 2

/-- Wildcard address constant of `<netinet/in.h>`. -/
def INADDR_ANY : Nat := 0

/-- `IPv4Address(ipAddress, port)`: `malloc` is `none` when the allocation
fails and the initial contents of the new structure otherwise; `ipAddress` is
`none` for a null pointer and the bytes of the C string otherwise. The value
is the returned pointer: `none` is null, `some a` the structure it points to. -/
def IPv4Address (malloc : Option SockaddrIn) (ipAddress : Option (List Nat)) (port : Int) :
    Except Fault (Option SockaddrIn) :=
  match malloc with
  | none => .ok none
  | some address =>
    let address := { address with sin_family := AF_INET }
    let address := { address with sin_port := htons port }
    match ipAddress with
    | none => .error .nullDeref
    | some s =>
      if strlen s = 0 ∨
          strcasecmp (s.takeWhile (fun c => c != 0)) (bytes "INADDR_ANY") = 0 then
        .ok (some { address with sin_addr := INADDR_ANY })
      else
        match inet_pton s with
        | some a => .ok (some { address with sin_addr := a })
        | none => .ok (some address)

/-! ## `main` (main.cpp, lines 54-159) -/

/-- Exit status constants of `<cstdlib>`. -/
def EXIT_SUCCESS : Int := 0

/-- Exit status constants of `<cstdlib>`. -/
def EXIT_FAILURE : Int := 1

/-- Results of the calls `main` makes into code outside the two source files,
and the contents of the memory it is handed. -/
structure Env where
  /-- value of `getMainArguments(argc, argv)` -/
  port : Int
  /-- value of `serverSocket.createSocket()` -/
  socketFD : Int
  /-- value of `__server->__database_init__()` -/
  databaseInit : Int
  /-- what `popen("ifconfig", "r")` yields -/
  popen : Option (List Nat)
  /-- initial contents of the `new char[4096]` of `exec` -/
  heap : Nat → Nat
  /-- what `malloc(sizeof(struct sockaddr_in))` yields -/
  malloc : Option SockaddrIn
  /-- value of `__server->bindServer(..)` -/
  bindServer : Int
  /-- value of `listen(serverSocketFD, 10)` -/
  listen : Int
  /-- whether `__SERVER_INIT__` returns -/
  serverLoopReturns : Bool

/-- The calls of `main` that acquire, use or release a resource, in the order
`main` makes them. -/
inductive Event
  | createSocket (fd : Int)
  | newServer (fd : Int)
  | databaseInit
  | getMachineIPv4Address (ret : Option Nat)
  | IPv4Address (allocated : Bool)
  | bindServer (fd : Int)
  | listen (fd : Int)
  | serverInit (fd : Int)
  | shutdown (fd : Int)
  | closeSocket (fd : Int)
  | deleteServer
  | free (allocated : Bool)
  | deleteArray (ptr : Nat)
deriving DecidableEq, Repr

/-- How a run of `main` ends. -/
inductive Outcome
  | returned (code : Int)
  | fault (f : Fault)
  | serving
deriving DecidableEq, Repr

/-- A run of `main`: the calls made and how it ended. -/
structure Run where
  trace : List Event
  outcome : Outcome
deriving DecidableEq, Repr

/-- The statements `delete[] machineIPv4Address; return code;` that end two
paths of `main`. The pointer is an offset in the block `new char[4096]` of
`exec`; `delete[]` is defined only for the pointer `new[]` returned, which is
offset 0, and is undefined behaviour for any other one, after which `main`
does not return. -/
def deleteArrayAndReturn (machineIPv4Address : Nat) (code : Int) : Outcome :=
  if machineIPv4Address = 0 then .returned code else .fault .invalidDelete

/-- The function `main`. -/
def main (env : Env) : Run :=
  let port := env.port
  if port = -1 then ⟨[], .returned EXIT_FAILURE⟩
  else
    let serverSocketFD := env.socketFD
    if serverSocketFD = -1 then
      ⟨[.createSocket serverSocketFD], .returned EXIT_FAILURE⟩
    else
      let t1 : List Event :=
        [.createSocket serverSocketFD, .newServer serverSocketFD, .databaseInit]
      if env.databaseInit = EXIT_FAILURE then
        ⟨t1 ++ [.shutdown serverSocketFD, .deleteServer, .closeSocket serverSocketFD],
          .returned EXIT_FAILURE⟩
      else
        match getMachineIPv4Address env.popen env.heap with
        | .error f => ⟨t1, .fault f⟩
        | .ok none =>
          ⟨t1 ++ [.getMachineIPv4Address none, .closeSocket serverSocketFD,
              .shutdown serverSocketFD, .deleteServer],
            .returned EXIT_FAILURE⟩
        | .ok (some (ptr, machineIPv4Address)) =>
          match IPv4Address env.malloc (some machineIPv4Address) port with
          | .error f => ⟨t1 ++ [.getMachineIPv4Address (some ptr)], .fault f⟩
          | .ok serverAddress =>
            let t2 : List Event :=
              t1 ++ [.getMachineIPv4Address (some ptr), .IPv4Address serverAddress.isSome,
                .bindServer serverSocketFD]
            if env.bindServer ≠ 0 then
              ⟨t2 ++ [.closeSocket serverSocketFD, .shutdown serverSocketFD,
                  .free serverAddress.isSome, .deleteServer, .deleteArray ptr],
                deleteArrayAndReturn ptr EXIT_FAILURE⟩
            else
              let t3 : List Event := t2 ++ [.listen serverSocketFD]
              if env.listen = -1 then
                ⟨t3 ++ [.closeSocket serverSocketFD, .shutdown serverSocketFD,
                    .free serverAddress.isSome, .deleteServer],
                  .returned EXIT_FAILURE⟩
              else if env.serverLoopReturns then
                ⟨t3 ++ [.serverInit serverSocketFD, .closeSocket serverSocketFD,
                    .shutdown serverSocketFD, .free serverAddress.isSome, .deleteServer,
                    .deleteArray ptr],
                  deleteArrayAndReturn ptr EXIT_SUCCESS⟩
              else ⟨t3 ++ [.serverInit serverSocketFD], .serving⟩

/-! ## Resource accounting over a trace -/

/-- The four resources `main` acquires. -/
inductive Resource
  | socket
  | server
  | addressString
  | sockaddr
deriving DecidableEq, Repr

/-- The resource a call acquires, if any. A failed `createSocket` or a null
result acquires nothing. -/
def Event.acquires : Event → Option Resource
  | .createSocket fd => if fd = -1 then none else some .socket
  | .newServer _ => some .server
  | .getMachineIPv4Address (some _) => some .addressString
  | .IPv4Address true => some .sockaddr
  | _ => none

/-- The resource a call releases, if any. `free` of a null pointer releases
nothing, and `delete[]` releases the block only when it is given the pointer
`new[]` returned, offset 0. -/
def Event.releases : Event → Option Resource
  | .closeSocket _ => some .socket
  | .deleteServer => some .server
  | .deleteArray ptr => if ptr = 0 then some .addressString else none
  | .free true => some .sockaddr
  | _ => none

/-- Resources acquired along a trace, in order. -/
def acquired (t : List Event) : List Resource := t.filterMap Event.acquires

/-- Resources released along a trace, in order. -/
def released (t : List Event) : List Resource := t.filterMap Event.releases

/-- Resources still held at the end of a trace: each release cancels one
earlier acquisition of the same resource. -/
def held : List Event → List Resource → List Resource
  | [], h => h
  | e :: t, h =>
    let h1 := match e.acquires with
      | some r => h ++ [r]
      | none => h
    let h2 := match e.releases with
      | some r => h1.erase r
      | none => h1
    held t h2

/-- Whether a trace issues a socket call on `fd` after `closeSocket fd`. -/
def usedAfterClose (fd : Int) : List Event → Bool
  | [] => false
  | .closeSocket fd' :: t =>
    if fd' = fd then
      t.any (fun e => e = .shutdown fd ∨ e = .bindServer fd ∨ e = .listen fd ∨
        e = .serverInit fd ∨ e = .closeSocket fd)
    else usedAfterClose fd t
  | _ :: t => usedAfterClose fd t

/-! ## The specification's vocabulary for address discovery -/

/-- Following the spec's words "whitespace/delimiters": space, tab, newline,
carriage return and NUL. -/
def isDelimiter (c : Nat) : Bool := c == 32 || c == 9 || c == 10 || c == 13 || c == 0

/-- Following the spec's words: the tokens that follow an `"inet "` marker in
the text, each trimmed of surrounding whitespace and delimiters. -/
def markerTokens : List Nat → List (List Nat)
  | [] => []
  | c :: cs =>
    if inetMarker.isPrefixOf (c :: cs) then
      ((((c :: cs).drop 5).dropWhile isDelimiter).takeWhile (fun x => !isDelimiter x)) ::
        markerTokens cs
    else markerTokens cs

/-- Following the spec's words: a parseable IPv4 token. -/
def isIPv4Token (t : List Nat) : Bool := (inet_pton t).isSome

/-- Following the spec's words: a loopback address, 127.0.0.0/8. -/
def isLoopback (t : List Nat) : Bool := (bytes "127.").isPrefixOf t

/-- Following the spec's words: a link-local address, 169.254.0.0/16. -/
def isLinkLocal (t : List Nat) : Bool := (bytes "169.254.").isPrefixOf t

/-- Following the spec's words: the first non-loopback IPv4 token following a
marker. -/
def firstNonLoopbackIPv4 (text : List Nat) : Option (List Nat) :=
  (markerTokens text).find? (fun t => isIPv4Token t && !isLoopback t)

/-! ## Concrete inputs -/

/-- Output of `ifconfig` on a host with one Ethernet interface, listed before
the loopback interface. -/
def ifconfigTwo : List Nat :=
  bytes ("enp0s3: flags=4163<UP,BROADCAST,RUNNING,MULTICAST>  mtu 1500\n" ++
    "        inet 10.0.2.15  netmask 255.255.255.0  broadcast 10.0.2.255\n" ++
    "        inet6 fe80::a00:27ff:fe4e:66a1  prefixlen 64  scopeid 0x20<link>\n" ++
    "lo: flags=73<UP,LOOPBACK,RUNNING>  mtu 65536\n" ++
    "        inet 127.0.0.1  netmask 255.0.0.0\n" ++
    "        inet6 ::1  prefixlen 128  scopeid 0x10<host>\n")

/-- Output of `ifconfig` on a host whose only addresses are the loopback
address and a link-local address. -/
def ifconfigNoRoutable : List Nat :=
  bytes ("lo: flags=73<UP,LOOPBACK,RUNNING>  mtu 65536\n" ++
    "        inet 127.0.0.1  netmask 255.0.0.0\n" ++
    "eth0: flags=4163<UP,BROADCAST,RUNNING,MULTICAST>  mtu 1500\n" ++
    "        inet 169.254.7.12  netmask 255.255.0.0  broadcast 169.254.255.255\n")

/-- A buffer that still holds text and has a NUL after it. -/
def staleHeap : Nat → Nat := fun i => (bytes "inet 10.0.0.1 inet 10.0.0.9 ").getD i 0

/-- A start-up in which every step succeeds and the server loop returns. -/
def cleanEnv : Env :=
  { port := 8080, socketFD := 3, databaseInit := 0, popen := some ifconfigTwo,
    heap := fun _ => 0, malloc := some ⟨0, 0, 0⟩, bindServer := 0, listen := 0,
    serverLoopReturns := true }

/-- A start-up in which only `listen` fails. -/
def listenFailureEnv : Env := { cleanEnv with listen := -1 }

/-- A start-up in which `ifconfig` prints nothing into a zero-filled buffer, so
that address discovery returns null. -/
def noAddressEnv : Env := { cleanEnv with popen := some [] }

/-- A start-up in which only `bindServer` fails. -/
def bindFailureEnv : Env := { cleanEnv with bindServer := -1 }

set_option maxRecDepth 1000000

/-! ## The scans of `strstr` and `strchr` -/

/-- A pointer returned by the `strstr` scan is the first position at which the
needle starts, and no NUL precedes it. -/
theorem strstrFrom_some (needle : List Nat) : ∀ (l : List Nat) (i j : Nat),
    strstrFrom needle l i = .ok (some j) →
    ∃ k, j = i + k ∧ needle <+: l.drop k ∧ 0 ∉ l.take k ∧
      ∀ k', k' < k → ¬ needle <+: l.drop k' := by
  intro l
  induction l with
  | nil => intro i j h; simp [strstrFrom] at h
  | cons c cs ih =>
    intro i j h
    unfold strstrFrom at h
    by_cases hp : needle.isPrefixOf (c :: cs) = true
    · rw [if_pos hp] at h
      refine ⟨0, ?_, ?_, ?_, ?_⟩
      · simpa using (Except.ok.inj h).symm
      · simpa using List.isPrefixOf_iff_prefix.mp hp
      · simp
      · intro k' hk'; omega
    · rw [if_neg hp] at h
      by_cases hc : c = 0
      · rw [if_pos hc] at h; simp at h
      · rw [if_neg hc] at h
        obtain ⟨k, hj, hpre, hz, hmin⟩ := ih (i + 1) j h
        refine ⟨k + 1, by omega, by simpa using hpre, ?_, ?_⟩
        · simp only [List.take_succ_cons, List.mem_cons, not_or]
          exact ⟨fun h0 => hc h0.symm, hz⟩
        · intro k' hk'
          cases k' with
          | zero =>
            intro hpre0
            exact hp (List.isPrefixOf_iff_prefix.mpr (by simpa using hpre0))
          | succ n =>
            have := hmin n (by omega)
            simpa using this

/-- A pointer returned by the `strchr` scan is the first position holding the
character, and no NUL precedes it. -/
theorem strchrFrom_some (ch : Nat) : ∀ (l : List Nat) (i j : Nat),
    strchrFrom ch l i = .ok (some j) →
    ∃ k, j = i + k ∧ l.drop k = ch :: l.drop (k + 1) ∧ 0 ∉ l.take k ∧ ch ∉ l.take k := by
  intro l
  induction l with
  | nil => intro i j h; simp [strchrFrom] at h
  | cons c cs ih =>
    intro i j h
    unfold strchrFrom at h
    by_cases hp : c = ch
    · rw [if_pos hp] at h
      refine ⟨0, ?_, ?_, ?_, ?_⟩
      · simpa using (Except.ok.inj h).symm
      · simp [hp]
      · simp
      · simp
    · rw [if_neg hp] at h
      by_cases hc : c = 0
      · rw [if_pos hc] at h; simp at h
      · rw [if_neg hc] at h
        obtain ⟨k, hj, hd, hz, hn⟩ := ih (i + 1) j h
        refine ⟨k + 1, by omega, by simpa using hd, ?_, ?_⟩
        · simp only [List.take_succ_cons, List.mem_cons, not_or]
          exact ⟨fun h0 => hc h0.symm, hz⟩
        · simp only [List.take_succ_cons, List.mem_cons, not_or]
          exact ⟨fun h0 => hp h0.symm, hn⟩

/-- The `strstr` scan stays inside an allocation that holds a NUL. -/
theorem strstrFrom_no_fault (needle : List Nat) : ∀ (l : List Nat) (i : Nat) (f : Fault),
    0 ∈ l → strstrFrom needle l i ≠ .error f := by
  intro l
  induction l with
  | nil => intro i f h; simp at h
  | cons c cs ih =>
    intro i f h
    unfold strstrFrom
    by_cases hp : needle.isPrefixOf (c :: cs) = true
    · simp [hp]
    · by_cases hc : c = 0
      · rw [if_neg hp, if_pos hc]; simp
      · simp only [hp, hc, if_false]
        apply ih
        simp only [List.mem_cons] at h
        rcases h with h | h
        · exact absurd h.symm hc
        · exact h

/-- The `strchr` scan stays inside an allocation that holds a NUL. -/
theorem strchrFrom_no_fault (ch : Nat) : ∀ (l : List Nat) (i : Nat) (f : Fault),
    0 ∈ l → strchrFrom ch l i ≠ .error f := by
  intro l
  induction l with
  | nil => intro i f h; simp at h
  | cons c cs ih =>
    intro i f h
    unfold strchrFrom
    by_cases hp : c = ch
    · simp [hp]
    · by_cases hc : c = 0
      · rw [if_neg hp, if_pos hc]; simp
      · simp only [hp, hc, if_false]
        apply ih
        simp only [List.mem_cons] at h
        rcases h with h | h
        · exact absurd h.symm hc
        · exact h

/-- Two occurrences of `"inet "` do not overlap. -/
theorem inetMarker_no_overlap (l : List Nat) (p d : Nat)
    (h1 : inetMarker <+: l.drop p) (h2 : inetMarker <+: l.drop (p + d)) (hd : 0 < d) :
    5 ≤ d := by
  by_contra hlt
  obtain ⟨t1, ht1⟩ := h1
  have h3 : l.drop (p + d) = (inetMarker ++ t1).drop d := by
    rw [ht1, List.drop_drop]
  have hd4 : d = 1 ∨ d = 2 ∨ d = 3 ∨ d = 4 := by omega
  rw [h3] at h2
  obtain ⟨t2, ht2⟩ := h2
  rcases hd4 with h | h | h | h <;> subst h <;> simp [inetMarker] at ht2

/-- A match at offset `p` splits the rest of the allocation. -/
theorem prefix_drop (m l : List Nat) (p : Nat) (h : m <+: l.drop p) :
    l.drop p = m ++ l.drop (p + m.length) := by
  obtain ⟨t, ht⟩ := h
  have : l.drop (p + m.length) = t := by
    rw [← List.drop_drop, ← ht]
    simp
  rw [this, ht]

/-- A NUL-free prefix of a NUL-terminated text is a prefix of the text. -/
theorem nulFree_prefix (x out rest : List Nat) (hx : 0 ∉ x) (h : x <+: out ++ 0 :: rest) :
    x <+: out := by
  rcases Nat.le_total x.length out.length with hle | hle
  · exact List.prefix_of_prefix_length_le h (List.prefix_append _ _) hle
  · by_cases heq : x.length = out.length
    · exact List.prefix_of_prefix_length_le h (List.prefix_append _ _) (by omega)
    · have h2 : out ++ [0] <+: out ++ 0 :: rest := by
        rw [show out ++ 0 :: rest = (out ++ [0]) ++ rest by simp]
        exact List.prefix_append _ _
      have h3 : out ++ [0] <+: x :=
        List.prefix_of_prefix_length_le h2 h (by simp; omega)
      exact absurd (h3.subset (by simp)) hx

/-- An element absent from the first `k` entries lies beyond them. -/
theorem mem_drop_of_not_mem_take (x : Nat) (l : List Nat) (k : Nat)
    (h : x ∈ l) (hn : x ∉ l.take k) : x ∈ l.drop k := by
  rw [← List.take_append_drop k l, List.mem_append] at h
  rcases h with h | h
  · exact absurd h hn
  · exact h

/-- When the three scans of `getMachineIPv4Address` succeed, the buffer splits
around the first two markers and the space that ends the token. -/
theorem scan_decomp (mem : List Nat) (p1 p2 e : Nat)
    (h1 : strstr mem 0 inetMarker = .ok (some p1))
    (h2 : strstr mem (p1 + 1) inetMarker = .ok (some p2))
    (h3 : strchr mem (p2 + 5) 32 = .ok (some e)) :
    ∃ a b addr rest,
      mem = a ++ inetMarker ++ b ++ inetMarker ++ addr ++ 32 :: rest ∧
      a.length = p1 ∧ a.length + 5 + b.length = p2 ∧
      addr = (mem.drop (p2 + 5)).take (e - (p2 + 5)) ∧
      32 ∉ addr ∧ 0 ∉ a ∧ 0 ∉ b ∧ 0 ∉ addr ∧
      (∀ k, k < a.length → ¬ inetMarker <+: mem.drop k) ∧
      (∀ k, a.length < k → k < a.length + 5 + b.length → ¬ inetMarker <+: mem.drop k) := by
  unfold strstr at h1 h2
  unfold strchr at h3
  obtain ⟨k1, hk1, hpre1, hz1, hmin1⟩ := strstrFrom_some _ _ _ _ h1
  obtain ⟨k2, hk2, hpre2, hz2, hmin2⟩ := strstrFrom_some _ _ _ _ h2
  obtain ⟨k3, hk3, hd3, hz3, hn3⟩ := strchrFrom_some _ _ _ _ h3
  simp only [List.drop_zero, Nat.zero_add] at hk1 hpre1 hz1 hmin1
  subst hk1
  simp only [List.drop_drop] at hpre2 hd3 hmin2
  have hno : 5 ≤ 1 + k2 := by
    apply inetMarker_no_overlap mem p1 (1 + k2) hpre1 _ (by omega)
    rw [← Nat.add_assoc]; exact hpre2
  have hm5 : inetMarker.length = 5 := rfl
  have e1 := prefix_drop _ _ _ hpre1
  have e2 := prefix_drop _ _ _ hpre2
  rw [hm5] at e1 e2
  have hp2 : p2 = p1 + 5 + (k2 - 4) := by omega
  have hlt1 : p1 < mem.length := by
    by_contra hge
    rw [List.drop_eq_nil_of_le (by omega)] at e1
    simp [inetMarker] at e1
  have hlt2 : p2 < mem.length := by
    by_contra hge
    rw [← hk2] at e2
    rw [List.drop_eq_nil_of_le (by omega)] at e2
    simp [inetMarker] at e2
  have hlt3 : p2 + 5 + k3 < mem.length := by
    by_contra hge
    rw [List.drop_eq_nil_of_le (by omega)] at hd3
    simp at hd3
  refine ⟨mem.take p1, (mem.drop (p1 + 5)).take (k2 - 4), (mem.drop (p2 + 5)).take k3,
    mem.drop (p2 + 5 + k3 + 1), ?_, ?_, ?_, ?_, hn3, hz1, ?_, hz3, ?_, ?_⟩
  · have s1 : mem = mem.take p1 ++ mem.drop p1 := (List.take_append_drop p1 mem).symm
    have s2 : mem.drop (p1 + 5) =
        (mem.drop (p1 + 5)).take (k2 - 4) ++ mem.drop p2 := by
      conv_lhs => rw [← List.take_append_drop (k2 - 4) (mem.drop (p1 + 5))]
      rw [List.drop_drop, ← hp2]
    have s3 : mem.drop p2 = inetMarker ++ mem.drop (p2 + 5) := by
      rw [← hk2] at e2; exact e2
    have s4 : mem.drop (p2 + 5) =
        (mem.drop (p2 + 5)).take k3 ++ 32 :: mem.drop (p2 + 5 + k3 + 1) := by
      conv_lhs => rw [← List.take_append_drop k3 (mem.drop (p2 + 5))]
      rw [List.drop_drop, hd3]
      congr 2
    conv_lhs => rw [s1, e1, s2, s3, s4]
    simp only [List.append_assoc]
  · simp [List.length_take]; omega
  · simp [List.length_take]; omega
  · rw [hk3]; congr 1; omega
  · intro h0
    apply hz2
    have : (mem.drop (p1 + 5)).take (k2 - 4) = ((mem.drop (p1 + 1)).take k2).drop 4 := by
      rw [List.drop_take, List.drop_drop]
    rw [this] at h0
    exact List.mem_of_mem_drop h0
  · intro k hk
    simp [List.length_take] at hk
    exact hmin1 k (by omega)
  · intro k hk1 hk2'
    simp [List.length_take] at hk1 hk2'
    have := hmin2 (k - (p1 + 1)) (by omega)
    rwa [show p1 + 1 + (k - (p1 + 1)) = k by omega] at this

/-- On a NUL-terminated text without a space after a second marker the three
scans of `getMachineIPv4Address` end in the null result. -/
theorem scan_null (mem : List Nat) (out rest : List Nat) (hmem : mem = out ++ 0 :: rest)
    (hno : ∀ a b c, out = a ++ inetMarker ++ b ++ inetMarker ++ c → 32 ∉ c) :
    (match strstr mem 0 inetMarker with
    | .error e => (.error e : Except Fault (Option (Nat × List Nat)))
    | .ok none => .ok none
    | .ok (some pos) =>
      match strstr mem (pos + 1) inetMarker with
      | .error e => .error e
      | .ok none => .ok none
      | .ok (some pos) =>
        match strchr mem (pos + 5) 32 with
        | .error e => .error e
        | .ok none => .ok none
        | .ok (some e) => .ok (some (pos + 5, (mem.drop (pos + 5)).take (e - (pos + 5))))) =
      .ok none := by
  have h0 : (0 : Nat) ∈ mem := by rw [hmem]; simp
  have hm0 : (0 : Nat) ∉ inetMarker := by decide
  cases h1 : strstr mem 0 inetMarker with
  | error f => exact absurd h1 (strstrFrom_no_fault _ _ _ _ (by simpa using h0))
  | ok r1 =>
    cases r1 with
    | none => rfl
    | some p1 =>
      simp only
      obtain ⟨k1, hk1, hpre1, hz1, _⟩ := strstrFrom_some _ _ _ _ h1
      simp only [List.drop_zero, Nat.zero_add] at hk1 hpre1 hz1
      subst hk1
      have e1 := prefix_drop _ _ _ hpre1
      have hd1 : (0 : Nat) ∈ mem.drop (p1 + 1) := by
        have := mem_drop_of_not_mem_take 0 mem p1 h0 hz1
        rw [e1, List.mem_append] at this
        rcases this with h | h
        · exact absurd h hm0
        · have h5 : mem.drop (p1 + inetMarker.length) = (mem.drop (p1 + 1)).drop 4 := by
            rw [List.drop_drop]; rfl
          rw [h5] at h
          exact List.mem_of_mem_drop h
      cases h2 : strstr mem (p1 + 1) inetMarker with
      | error f => exact absurd h2 (strstrFrom_no_fault _ _ _ _ hd1)
      | ok r2 =>
        cases r2 with
        | none => rfl
        | some p2 =>
          simp only
          obtain ⟨k2, hk2, hpre2, hz2, _⟩ := strstrFrom_some _ _ _ _ h2
          simp only [List.drop_drop] at hpre2
          rw [← hk2] at hpre2
          have e2 := prefix_drop _ _ _ hpre2
          have hd2 : (0 : Nat) ∈ mem.drop (p2 + 5) := by
            have := mem_drop_of_not_mem_take 0 _ k2 hd1 hz2
            rw [List.drop_drop, ← hk2, e2, List.mem_append] at this
            rcases this with h | h
            · exact absurd h hm0
            · exact h
          cases h3 : strchr mem (p2 + 5) 32 with
          | error f => exact absurd h3 (strchrFrom_no_fault _ _ _ _ hd2)
          | ok r3 =>
            cases r3 with
            | none => rfl
            | some e =>
              exfalso
              obtain ⟨a, b, addr, tl, hdec, _, _, _, _, ha, hb, hadd, _, _⟩ :=
                scan_decomp mem p1 p2 e h1 h2 h3
              have hpre : a ++ inetMarker ++ b ++ inetMarker ++ addr ++ [32] <+:
                  out ++ 0 :: rest := by
                rw [← hmem]
                refine ⟨tl, ?_⟩
                conv_rhs => rw [hdec]
                simp
              have hnz : (0 : Nat) ∉ a ++ inetMarker ++ b ++ inetMarker ++ addr ++ [32] := by
                simp only [List.mem_append, not_or]
                exact ⟨⟨⟨⟨⟨ha, hm0⟩, hb⟩, hm0⟩, hadd⟩, by simp⟩
              obtain ⟨t, ht⟩ := nulFree_prefix _ _ _ hnz hpre
              exact hno a b (addr ++ 32 :: t) (by rw [← ht]; simp) (by simp)

/-! ## The buffer `exec` returns -/

/-- `fgets` splits the unread data, consumes something when there is something,
and raises the end-of-file indicator only at the end of the data. -/
theorem fgetsLoop_spec : ∀ (k : Nat) (s : List Nat),
    (fgetsLoop k s).1 ++ (fgetsLoop k s).2.1 = s ∧
    ((fgetsLoop k s).2.2 = true → (fgetsLoop k s).2.1 = []) ∧
    (0 < k → s ≠ [] → (fgetsLoop k s).1 ≠ []) ∧
    (0 < k → s = [] → (fgetsLoop k s).2.2 = true) := by
  intro k
  induction k with
  | zero => intro s; simp [fgetsLoop]
  | succ k ih =>
    intro s
    cases s with
    | nil => simp [fgetsLoop]
    | cons c cs =>
      unfold fgetsLoop
      by_cases hc : c = 10
      · simp [hc]
      · obtain ⟨h1, h2, _⟩ := ih cs
        simp only [hc, if_false]
        exact ⟨by simp [h1], h2, by simp, by simp⟩

/-- The C string of a NUL-free chunk followed by a NUL is the chunk. -/
theorem takeWhile_nul_append (c t : List Nat) (h : 0 ∉ c) :
    (c ++ 0 :: t).takeWhile (fun x => x != 0) = c := by
  induction c with
  | nil => simp
  | cons a as ih =>
    simp only [List.mem_cons, not_or] at h
    have ha : (a != 0) = true := by simpa using fun h0 => h.1 h0.symm
    simp [List.takeWhile_cons, ha, ih h.2]

/-- `strlen` of the `fgets` buffer of a NUL-free chunk. -/
theorem strlen_chunk (chunk : List Nat) (h : 0 ∉ chunk) :
    strlen (chunk ++ [0]) = chunk.length := by
  simp [strlen, takeWhile_nul_append chunk [] h]

/-- The copy `exec` makes of a NUL-free chunk. -/
theorem strncpy_chunk (mem : List Nat) (off : Nat) (chunk : List Nat) (h : 0 ∉ chunk) :
    strncpy mem off (chunk ++ [0]) (strlen (chunk ++ [0])) =
      if off + chunk.length ≤ mem.length then
        .ok (mem.take off ++ chunk ++ mem.drop (off + chunk.length))
      else .error .heapOverflow := by
  simp [strncpy, strncpyBytes, strlen_chunk chunk h, takeWhile_nul_append chunk [] h]

/-- The bytes before the end of a copied chunk. -/
theorem splice_take (mem chunk : List Nat) (off : Nat) (h : off ≤ mem.length) :
    (mem.take off ++ chunk ++ mem.drop (off + chunk.length)).take (off + chunk.length) =
      mem.take off ++ chunk := by
  rw [List.take_append_eq_append_take]
  simp [List.length_take, Nat.min_eq_left h]

/-- The bytes after a copied chunk are those of the allocation. -/
theorem splice_drop (mem chunk : List Nat) (off n : Nat) (h : off ≤ mem.length) :
    (mem.take off ++ chunk ++ mem.drop (off + chunk.length)).drop (off + chunk.length + n) =
      mem.drop (off + (chunk.length + n)) := by
  rw [List.drop_append_eq_append_drop]
  simp only [List.length_append, List.length_take, Nat.min_eq_left h, List.drop_drop]
  rw [List.drop_eq_nil_of_le (by simp [Nat.min_eq_left h])]
  simp only [List.nil_append]
  congr 1
  omega

/-- The loop of `exec` on NUL-free data: it appends the data at `totalSize` when
it fits and overflows the allocation otherwise; the fuel given is enough. -/
theorem execLoop_nulFree : ∀ (fuel : Nat) (s : List Nat) (eof : Bool) (result : List Nat)
    (total : Nat),
    (eof = true → 1 ≤ fuel) → (eof = false → s.length + 2 ≤ fuel) →
    0 ∉ s → (eof = true → s = []) → total ≤ result.length →
    execLoop fuel ⟨s, eof⟩ result total =
      if total + s.length ≤ result.length then
        .ok (result.take total ++ s ++ result.drop (total + s.length), total + s.length)
      else .error .heapOverflow := by
  intro fuel
  induction fuel with
  | zero =>
    intro s eof result total h1 h2 _ _ _
    cases eof
    · have := h2 rfl; omega
    · have := h1 rfl; omega
  | succ fuel ih =>
    intro s eof result total h1 h2 hz he ht
    unfold execLoop
    cases eof with
    | true =>
      have hs := he rfl
      subst hs
      simp [ht]
    | false =>
      have hf := h2 rfl
      obtain ⟨hsplit, heof, hne, hemp⟩ := fgetsLoop_spec 127 s
      simp only [Bool.false_eq_true, if_false, fgets, Nat.add_one_sub_one, Bool.false_or]
      generalize (fgetsLoop 127 s).1 = chunk at *
      generalize (fgetsLoop 127 s).2.1 = rest at *
      generalize (fgetsLoop 127 s).2.2 = e at *
      subst hsplit
      simp only [List.mem_append, not_or] at hz
      simp only [List.length_append] at hf
      by_cases hr : chunk = []
      · subst hr
        have hrest : rest = [] := by
          by_contra hne'
          exact hne (by omega) (by simpa using hne') rfl
        subst hrest
        simp only [if_true]
        cases e with
        | true =>
          rw [ih [] true result total (fun _ => by simp at hf; omega)
            (fun h => by simp at h) (by simp) (fun _ => rfl) ht]
          simp
        | false =>
          have := hemp (by omega) rfl
          simp at this
      · simp only [hr, if_false]
        have hpos : 0 < chunk.length := List.length_pos.mpr hr
        rw [strncpy_chunk result total _ hz.1, strlen_chunk _ hz.1]
        by_cases hfit : total + chunk.length ≤ result.length
        · simp only [hfit, if_true]
          have hlen' : (List.take total result ++ chunk ++
              List.drop (total + chunk.length) result).length = result.length := by
            simp; omega
          rw [ih rest e _ _ (fun _ => by omega) (fun _ => by omega) hz.2 heof
            (by rw [hlen']; exact hfit)]
          rw [hlen', splice_take _ _ _ ht, splice_drop _ _ _ _ ht]
          simp [Nat.add_assoc]
        · have hfit2 : ¬ total + (chunk.length + rest.length) ≤ result.length := by
            omega
          simp [hfit, hfit2]

/-- The result buffer has 4096 bytes. -/
theorem length_newResult (heap : Nat → Nat) : (newResult heap).length = RESULT_SIZE := by
  simp [newResult]

/-- The byte of the fresh buffer at offset `n`. -/
theorem drop_newResult (heap : Nat → Nat) (n : Nat) (h : n < RESULT_SIZE) :
    (newResult heap).drop n = heap n :: (newResult heap).drop (n + 1) := by
  have hl : n < (newResult heap).length := by rw [length_newResult]; exact h
  rw [List.drop_eq_getElem_cons hl]
  simp [newResult]

/-- `exec` on NUL-free output: the buffer holds the output followed by the
initial contents of the allocation, with no NUL written after the output; output
longer than the buffer overflows it. -/
theorem exec_nulFree (out : List Nat) (heap : Nat → Nat) (hz : 0 ∉ out) :
    exec (some out) heap =
      if out.length ≤ RESULT_SIZE then
        .ok (some (out ++ (newResult heap).drop out.length, out.length))
      else .error .heapOverflow := by
  unfold exec
  simp only
  rw [execLoop_nulFree _ out false (newResult heap) 0 (fun h => by simp at h)
    (fun _ => Nat.le_refl _) hz (fun h => by simp at h) (Nat.zero_le _)]
  simp only [Nat.zero_add, length_newResult, List.take_zero, List.nil_append]
  by_cases h : out.length ≤ RESULT_SIZE <;> simp [h]

/-- `exec` on NUL-free output that is followed by a NUL already in the buffer. -/
theorem exec_terminated (out : List Nat) (heap : Nat → Nat) (hz : 0 ∉ out)
    (hlen : out.length < RESULT_SIZE) (hterm : heap out.length = 0) :
    exec (some out) heap =
      .ok (some (out ++ 0 :: (newResult heap).drop (out.length + 1), out.length)) := by
  rw [exec_nulFree out heap hz, if_pos (Nat.le_of_lt hlen), drop_newResult heap _ hlen, hterm]

/-- The loop of `exec` terminates within the fuel it is given. -/
theorem execLoop_fuel : ∀ (fuel : Nat) (s : List Nat) (eof : Bool) (result : List Nat)
    (total : Nat),
    (eof = true → 1 ≤ fuel) → (eof = false → s.length + 2 ≤ fuel) →
    execLoop fuel ⟨s, eof⟩ result total ≠ .error .outOfFuel := by
  intro fuel
  induction fuel with
  | zero =>
    intro s eof result total h1 h2
    cases eof
    · have := h2 rfl; omega
    · have := h1 rfl; omega
  | succ fuel ih =>
    intro s eof result total h1 h2
    unfold execLoop
    cases eof with
    | true => simp
    | false =>
      have hf := h2 rfl
      obtain ⟨hsplit, heof, hne, hemp⟩ := fgetsLoop_spec 127 s
      simp only [Bool.false_eq_true, if_false, fgets, Nat.add_one_sub_one, Bool.false_or]
      generalize (fgetsLoop 127 s).1 = chunk at *
      generalize (fgetsLoop 127 s).2.1 = rest at *
      generalize (fgetsLoop 127 s).2.2 = e at *
      subst hsplit
      simp only [List.length_append] at hf
      by_cases hr : chunk = []
      · subst hr
        have hrest : rest = [] := by
          by_contra hne'
          exact hne (by omega) (by simpa using hne') rfl
        subst hrest
        have he : e = true := hemp (by omega) rfl
        subst he
        simp only [if_true]
        exact ih _ _ _ _ (fun _ => by omega) (fun h => by simp at h)
      · simp only [hr, if_false]
        have hpos : 0 < chunk.length := List.length_pos.mpr hr
        cases hcp : strncpy result total (chunk ++ [0]) (strlen (chunk ++ [0])) with
        | error f =>
          unfold strncpy at hcp
          split at hcp
          · simp at hcp
          · simp only [Except.error.injEq] at hcp
            subst hcp
            simp
        | ok r =>
          simp only
          exact ih _ _ _ _ (fun _ => by omega) (fun _ => by omega)

/-- `exec` terminates on every output: the model never runs out of fuel. -/
theorem exec_fuel (popen : Option (List Nat)) (heap : Nat → Nat) :
    exec popen heap ≠ .error .outOfFuel := by
  unfold exec
  cases popen with
  | none => simp
  | some out =>
    simp only
    have := execLoop_fuel (out.length + 2) out false (newResult heap) 0
      (fun h => by simp at h) (fun _ => Nat.le_refl _)
    cases h : execLoop (out.length + 2) ⟨out, false⟩ (newResult heap) 0 with
    | error f =>
      simp only [ne_eq, Except.error.injEq]
      intro hf
      subst hf
      exact this h
    | ok r => simp

/-- A returned address comes from three successful scans of the buffer. -/
theorem getMachineIPv4Address_some_inv (popen : Option (List Nat)) (heap : Nat → Nat)
    (pos : Nat) (addr : List Nat)
    (h : getMachineIPv4Address popen heap = .ok (some (pos, addr))) :
    ∃ out mem total p1 p2 e,
      popen = some out ∧ exec popen heap = .ok (some (mem, total)) ∧
      strstr mem 0 inetMarker = .ok (some p1) ∧
      strstr mem (p1 + 1) inetMarker = .ok (some p2) ∧
      strchr mem (p2 + 5) 32 = .ok (some e) ∧
      pos = p2 + 5 ∧ addr = (mem.drop (p2 + 5)).take (e - (p2 + 5)) := by
  unfold getMachineIPv4Address at h
  cases hx : exec popen heap with
  | error f => rw [hx] at h; simp at h
  | ok r =>
    rw [hx] at h
    cases r with
    | none => simp at h
    | some mt =>
      obtain ⟨mem, total⟩ := mt
      simp only at h
      cases popen with
      | none => simp [exec] at hx
      | some out =>
        cases h1 : strstr mem 0 inetMarker with
        | error f => rw [h1] at h; simp at h
        | ok r1 =>
          rw [h1] at h
          cases r1 with
          | none => simp at h
          | some p1 =>
            simp only at h
            cases h2 : strstr mem (p1 + 1) inetMarker with
            | error f => rw [h2] at h; simp at h
            | ok r2 =>
              rw [h2] at h
              cases r2 with
              | none => simp at h
              | some p2 =>
                simp only at h
                cases h3 : strchr mem (p2 + 5) 32 with
                | error f => rw [h3] at h; simp at h
                | ok r3 =>
                  rw [h3] at h
                  cases r3 with
                  | none => simp at h
                  | some e =>
                    simp only [Except.ok.injEq, Option.some.injEq, Prod.mk.injEq] at h
                    exact ⟨out, mem, total, p1, p2, e, rfl, rfl, h1, h2, h3, h.1.symm, h.2.symm⟩

/-- The pointer `getMachineIPv4Address` returns lies at least ten bytes inside
the buffer `exec` allocated, so it is never the pointer `new[]` returned. -/
theorem getMachineIPv4Address_ptr_interior (popen : Option (List Nat)) (heap : Nat → Nat)
    (pos : Nat) (addr : List Nat)
    (h : getMachineIPv4Address popen heap = .ok (some (pos, addr))) : 10 ≤ pos := by
  obtain ⟨out, mem, total, p1, p2, e, _, _, h1, h2, h3, hpos, _⟩ :=
    getMachineIPv4Address_some_inv popen heap pos addr h
  obtain ⟨a, b, addr', rest, _, _, hlb, _⟩ := scan_decomp mem p1 p2 e h1 h2 h3
  omega

/-! ## Paths of `main` -/

/-- The only fault of the `strstr` scan is a read past the allocation. -/
theorem strstrFrom_error (needle : List Nat) : ∀ (l : List Nat) (i : Nat) (f : Fault),
    strstrFrom needle l i = .error f → f = .readPastBuffer := by
  intro l
  induction l with
  | nil => intro i f h; simp [strstrFrom] at h; exact h.symm
  | cons c cs ih =>
    intro i f h
    unfold strstrFrom at h
    split at h
    · simp at h
    · split at h
      · simp at h
      · exact ih _ _ h

/-- The only fault of the `strchr` scan is a read past the allocation. -/
theorem strchrFrom_error (ch : Nat) : ∀ (l : List Nat) (i : Nat) (f : Fault),
    strchrFrom ch l i = .error f → f = .readPastBuffer := by
  intro l
  induction l with
  | nil => intro i f h; simp [strchrFrom] at h; exact h.symm
  | cons c cs ih =>
    intro i f h
    unfold strchrFrom at h
    split at h
    · simp at h
    · split at h
      · simp at h
      · exact ih _ _ h

/-- The loop of `exec` faults only by overflowing the buffer or by running out
of fuel. -/
theorem execLoop_error : ∀ (fuel : Nat) (pipe : Pipe) (result : List Nat) (total : Nat)
    (f : Fault), execLoop fuel pipe result total = .error f →
    f = .heapOverflow ∨ f = .outOfFuel := by
  intro fuel
  induction fuel with
  | zero => intro pipe result total f h; simp [execLoop] at h; exact Or.inr h.symm
  | succ fuel ih =>
    intro pipe result total f h
    unfold execLoop at h
    split at h
    · simp at h
    · split at h
      · rename_i buffer pipe' _
        simp only at h
        cases hcp : strncpy result total buffer (strlen buffer) with
        | error e =>
          rw [hcp] at h
          simp only [Except.error.injEq] at h
          subst h
          unfold strncpy at hcp
          split at hcp
          · simp at hcp
          · simp only [Except.error.injEq] at hcp
            exact Or.inl hcp.symm
        | ok r =>
          rw [hcp] at h
          exact ih _ _ _ _ h
      · exact ih _ _ _ _ h

/-- `getMachineIPv4Address` never ends in the fault of an invalid `delete[]`. -/
theorem getMachineIPv4Address_ne_invalidDelete (popen : Option (List Nat))
    (heap : Nat → Nat) : getMachineIPv4Address popen heap ≠ .error .invalidDelete := by
  intro h
  unfold getMachineIPv4Address at h
  cases hx : exec popen heap with
  | error f =>
    rw [hx] at h
    simp only [Except.error.injEq] at h
    subst h
    unfold exec at hx
    cases popen with
    | none => simp at hx
    | some out =>
      simp only at hx
      cases hl : execLoop (out.length + 2) ⟨out, false⟩ (newResult heap) 0 with
      | error e =>
        rw [hl] at hx
        simp only [Except.error.injEq] at hx
        subst hx
        rcases execLoop_error _ _ _ _ _ hl with h' | h' <;> simp at h'
      | ok r => rw [hl] at hx; simp at hx
  | ok r =>
    rw [hx] at h
    cases r with
    | none => simp at h
    | some mt =>
      obtain ⟨mem, total⟩ := mt
      simp only at h
      cases h1 : strstr mem 0 inetMarker with
      | error f =>
        have := strstrFrom_error _ _ _ _ h1
        rw [h1] at h
        simp only [Except.error.injEq] at h
        rw [h] at this
        simp at this
      | ok r1 =>
        rw [h1] at h
        cases r1 with
        | none => simp at h
        | some p1 =>
          simp only at h
          cases h2 : strstr mem (p1 + 1) inetMarker with
          | error f =>
            have := strstrFrom_error _ _ _ _ h2
            rw [h2] at h
            simp only [Except.error.injEq] at h
            rw [h] at this
            simp at this
          | ok r2 =>
            rw [h2] at h
            cases r2 with
            | none => simp at h
            | some p2 =>
              simp only at h
              cases h3 : strchr mem (p2 + 5) 32 with
              | error f =>
                have := strchrFrom_error _ _ _ _ h3
                rw [h3] at h
                simp only [Except.error.injEq] at h
                rw [h] at this
                simp at this
              | ok r3 =>
                rw [h3] at h
                cases r3 <;> simp at h

/-- With a non-null string `IPv4Address` dereferences no null pointer. -/
theorem IPv4Address_some_ne_error (m : Option SockaddrIn) (s : List Nat) (port : Int) (f : Fault) :
    IPv4Address m (some s) port ≠ .error f := by
  unfold IPv4Address
  cases m with
  | none => simp
  | some a =>
    simp only
    split
    · simp
    · split <;> simp

/-- The pointer `main` hands to `delete[]` is never the one `new[]` returned,
so the statement is always the undefined one. -/
theorem deleteArrayAndReturn_interior (popen : Option (List Nat)) (heap : Nat → Nat)
    (ptr : Nat) (s : List Nat) (code : Int)
    (h : getMachineIPv4Address popen heap = .ok (some (ptr, s))) :
    deleteArrayAndReturn ptr code = .fault .invalidDelete := by
  have := getMachineIPv4Address_ptr_interior popen heap ptr s h
  unfold deleteArrayAndReturn
  rw [if_neg (by omega)]

/-- The ten ways a run of `main` can go, each with its trace and outcome. -/
theorem main_cases (env : Env) (P : Run → Prop)
    (h1 : env.port = -1 → P ⟨[], .returned EXIT_FAILURE⟩)
    (h2 : env.port ≠ -1 → env.socketFD = -1 →
      P ⟨[.createSocket env.socketFD], .returned EXIT_FAILURE⟩)
    (h3 : env.port ≠ -1 → env.socketFD ≠ -1 → env.databaseInit = EXIT_FAILURE →
      P ⟨[.createSocket env.socketFD, .newServer env.socketFD, .databaseInit,
          .shutdown env.socketFD, .deleteServer, .closeSocket env.socketFD],
        .returned EXIT_FAILURE⟩)
    (h4 : ∀ f, env.port ≠ -1 → env.socketFD ≠ -1 → env.databaseInit ≠ EXIT_FAILURE →
      getMachineIPv4Address env.popen env.heap = .error f →
      P ⟨[.createSocket env.socketFD, .newServer env.socketFD, .databaseInit], .fault f⟩)
    (h5 : env.port ≠ -1 → env.socketFD ≠ -1 → env.databaseInit ≠ EXIT_FAILURE →
      getMachineIPv4Address env.popen env.heap = .ok none →
      P ⟨[.createSocket env.socketFD, .newServer env.socketFD, .databaseInit,
          .getMachineIPv4Address none, .closeSocket env.socketFD,
          .shutdown env.socketFD, .deleteServer], .returned EXIT_FAILURE⟩)
    (h6 : ∀ ptr s f, env.port ≠ -1 → env.socketFD ≠ -1 → env.databaseInit ≠ EXIT_FAILURE →
      getMachineIPv4Address env.popen env.heap = .ok (some (ptr, s)) →
      IPv4Address env.malloc (some s) env.port = .error f →
      P ⟨[.createSocket env.socketFD, .newServer env.socketFD, .databaseInit,
          .getMachineIPv4Address (some ptr)], .fault f⟩)
    (h7 : ∀ ptr s a, env.port ≠ -1 → env.socketFD ≠ -1 → env.databaseInit ≠ EXIT_FAILURE →
      getMachineIPv4Address env.popen env.heap = .ok (some (ptr, s)) → 10 ≤ ptr →
      IPv4Address env.malloc (some s) env.port = .ok a → env.bindServer ≠ 0 →
      P ⟨[.createSocket env.socketFD, .newServer env.socketFD, .databaseInit,
          .getMachineIPv4Address (some ptr), .IPv4Address a.isSome,
          .bindServer env.socketFD, .closeSocket env.socketFD, .shutdown env.socketFD,
          .free a.isSome, .deleteServer, .deleteArray ptr], .fault .invalidDelete⟩)
    (h8 : ∀ ptr s a, env.port ≠ -1 → env.socketFD ≠ -1 → env.databaseInit ≠ EXIT_FAILURE →
      getMachineIPv4Address env.popen env.heap = .ok (some (ptr, s)) →
      IPv4Address env.malloc (some s) env.port = .ok a → env.bindServer = 0 →
      env.listen = -1 →
      P ⟨[.createSocket env.socketFD, .newServer env.socketFD, .databaseInit,
          .getMachineIPv4Address (some ptr), .IPv4Address a.isSome,
          .bindServer env.socketFD, .listen env.socketFD, .closeSocket env.socketFD,
          .shutdown env.socketFD, .free a.isSome, .deleteServer],
        .returned EXIT_FAILURE⟩)
    (h9 : ∀ ptr s a, env.port ≠ -1 → env.socketFD ≠ -1 → env.databaseInit ≠ EXIT_FAILURE →
      getMachineIPv4Address env.popen env.heap = .ok (some (ptr, s)) → 10 ≤ ptr →
      IPv4Address env.malloc (some s) env.port = .ok a → env.bindServer = 0 →
      env.listen ≠ -1 → env.serverLoopReturns = true →
      P ⟨[.createSocket env.socketFD, .newServer env.socketFD, .databaseInit,
          .getMachineIPv4Address (some ptr), .IPv4Address a.isSome,
          .bindServer env.socketFD, .listen env.socketFD, .serverInit env.socketFD,
          .closeSocket env.socketFD, .shutdown env.socketFD, .free a.isSome,
          .deleteServer, .deleteArray ptr], .fault .invalidDelete⟩)
    (h10 : ∀ ptr s a, env.port ≠ -1 → env.socketFD ≠ -1 → env.databaseInit ≠ EXIT_FAILURE →
      getMachineIPv4Address env.popen env.heap = .ok (some (ptr, s)) →
      IPv4Address env.malloc (some s) env.port = .ok a → env.bindServer = 0 →
      env.listen ≠ -1 → env.serverLoopReturns = false →
      P ⟨[.createSocket env.socketFD, .newServer env.socketFD, .databaseInit,
          .getMachineIPv4Address (some ptr), .IPv4Address a.isSome,
          .bindServer env.socketFD, .listen env.socketFD, .serverInit env.socketFD],
        .serving⟩) :
    P (main env) := by
  unfold main
  by_cases hp : env.port = -1
  · simpa [hp] using h1 hp
  by_cases hs : env.socketFD = -1
  · simpa [hp, hs] using h2 hp hs
  by_cases hd : env.databaseInit = EXIT_FAILURE
  · simpa [hp, hs, hd] using h3 hp hs hd
  simp only [hp, hs, hd, if_false]
  cases hg : getMachineIPv4Address env.popen env.heap with
  | error f => simpa using h4 f hp hs hd hg
  | ok r =>
    cases r with
    | none => simpa using h5 hp hs hd hg
    | some ps =>
      obtain ⟨ptr, s⟩ := ps
      have hptr := getMachineIPv4Address_ptr_interior _ _ _ _ hg
      have hdel : ∀ code, deleteArrayAndReturn ptr code = .fault .invalidDelete :=
        fun code => deleteArrayAndReturn_interior _ _ _ _ code hg
      cases hi : IPv4Address env.malloc (some s) env.port with
      | error f => simpa [hi] using h6 ptr s f hp hs hd hg hi
      | ok a =>
        by_cases hb : env.bindServer = 0
        · by_cases hl : env.listen = -1
          · simpa [hi, hb, hl] using h8 ptr s a hp hs hd hg hi hb hl
          · cases hr : env.serverLoopReturns
            · simpa [hi, hb, hl, hr] using h10 ptr s a hp hs hd hg hi hb hl hr
            · simpa [hi, hb, hl, hr, hdel] using h9 ptr s a hp hs hd hg hptr hi hb hl hr
        · simpa [hi, hb, hdel] using h7 ptr s a hp hs hd hg hptr hi hb

/-! ## Resource handling of `main` (C1, C2, C7, C8) and its exit code (C6) -/

/-- Every run of `main` in which `listen` fails returns with the address string
still held. -/
theorem main_listen_failure_holds_address_string (env : Env)
    (hport : env.port ≠ -1) (hfd : env.socketFD ≠ -1)
    (hdb : env.databaseInit ≠ EXIT_FAILURE) (ptr : Nat) (s : List Nat)
    (haddr : getMachineIPv4Address env.popen env.heap = .ok (some (ptr, s)))
    (hbind : env.bindServer = 0) (hlisten : env.listen = -1) :
    (main env).outcome = .returned EXIT_FAILURE ∧
    held (main env).trace [] = [.addressString] := by
  unfold main
  simp only [hport, hfd, hdb, if_false, haddr]
  cases hi : IPv4Address env.malloc (some s) env.port with
  | error f => exact absurd hi (IPv4Address_some_ne_error _ _ _ _)
  | ok a =>
    cases a <;>
      simp [hbind, hlisten, held, Event.acquires, Event.releases, hfd]

/-- C1, evaluated at a start-up in which only `listen` fails: `main` returns
`EXIT_FAILURE` having acquired the socket, the server object, the address
string and the `sockaddr_in`, and having released the socket, the `sockaddr_in`
and the server object; the address string buffer is still held at the return,
although the claim says every acquired resource has been released. -/
theorem main_listen_failure_leaks_address_string :
    (main listenFailureEnv).outcome = .returned EXIT_FAILURE ∧
    acquired (main listenFailureEnv).trace =
      [.socket, .server, .addressString, .sockaddr] ∧
    released (main listenFailureEnv).trace = [.socket, .sockaddr, .server] ∧
    held (main listenFailureEnv).trace [] = [.addressString] := by
  decide!

/-- C2: on every run of `main` that reaches a `return` statement after
`createSocket` succeeded, be it a start-up failure or the normal shutdown,
`closeSocket` is called exactly once, and only on the listening descriptor; the
`sockaddr_in` is freed as many times as it was allocated, which is at most once;
and neither the socket nor a `sockaddr_in` is held at the end. The runs that
end in the `delete[]` placed just before the `return` of the bind-failure and
shutdown paths are included. -/
theorem main_closeSocket_once (env : Env)
    (hport : env.port ≠ -1) (hfd : env.socketFD ≠ -1)
    (hend : (∃ c, (main env).outcome = .returned c) ∨
      (main env).outcome = .fault .invalidDelete) :
    (main env).trace.count (.closeSocket env.socketFD) = 1 ∧
    (∀ fd, Event.closeSocket fd ∈ (main env).trace → fd = env.socketFD) ∧
    (main env).trace.count (.free true) = (main env).trace.count (.IPv4Address true) ∧
    (main env).trace.count (.IPv4Address true) ≤ 1 ∧
    Resource.socket ∉ held (main env).trace [] ∧
    Resource.sockaddr ∉ held (main env).trace [] := by
  revert hend
  refine main_cases env
    (fun r => ((∃ c, r.outcome = .returned c) ∨ r.outcome = .fault .invalidDelete) →
      r.trace.count (.closeSocket env.socketFD) = 1 ∧
      (∀ fd, Event.closeSocket fd ∈ r.trace → fd = env.socketFD) ∧
      r.trace.count (.free true) = r.trace.count (.IPv4Address true) ∧
      r.trace.count (.IPv4Address true) ≤ 1 ∧
      Resource.socket ∉ held r.trace [] ∧ Resource.sockaddr ∉ held r.trace [])
    ?_ ?_ ?_ ?_ ?_ ?_ ?_ ?_ ?_ ?_
  · intro h; exact absurd h hport
  · intro _ h; exact absurd h hfd
  · intro _ _ _ _
    simp [List.count_cons, held, Event.acquires, Event.releases, hfd]
  · intro f _ _ _ hg h
    exfalso
    rcases h with ⟨c, h⟩ | h
    · simp at h
    · simp only [Outcome.fault.injEq] at h
      subst h
      exact getMachineIPv4Address_ne_invalidDelete _ _ hg
  · intro _ _ _ _ _
    simp [List.count_cons, held, Event.acquires, Event.releases, hfd]
  · intro ptr s f _ _ _ _ hi _; exact absurd hi (IPv4Address_some_ne_error _ _ _ _)
  · intro ptr s a _ _ _ _ hptr _ _ _
    have hp0 : ptr ≠ 0 := by omega
    cases a <;> simp [List.count_cons, held, Event.acquires, Event.releases, hfd, hp0]
  · intro ptr s a _ _ _ _ _ _ _ _
    cases a <;> simp [List.count_cons, held, Event.acquires, Event.releases, hfd]
  · intro ptr s a _ _ _ _ hptr _ _ _ _ _
    have hp0 : ptr ≠ 0 := by omega
    cases a <;> simp [List.count_cons, held, Event.acquires, Event.releases, hfd, hp0]
  · intro ptr s a _ _ _ _ _ _ _ _ h; simp at h

/-- Instance at the start-up in which only `listen` fails. -/
theorem main_closeSocket_once_witness :
    listenFailureEnv.port ≠ -1 ∧ listenFailureEnv.socketFD ≠ -1 ∧
    ((∃ c, (main listenFailureEnv).outcome = .returned c) ∨
      (main listenFailureEnv).outcome = .fault .invalidDelete) ∧
    (main listenFailureEnv).trace.count (.closeSocket listenFailureEnv.socketFD) = 1 ∧
    (∀ fd, Event.closeSocket fd ∈ (main listenFailureEnv).trace →
      fd = listenFailureEnv.socketFD) ∧
    (main listenFailureEnv).trace.count (.free true) =
      (main listenFailureEnv).trace.count (.IPv4Address true) ∧
    (main listenFailureEnv).trace.count (.IPv4Address true) ≤ 1 ∧
    Resource.socket ∉ held (main listenFailureEnv).trace [] ∧
    Resource.sockaddr ∉ held (main listenFailureEnv).trace [] :=
  ⟨by decide, by decide, Or.inl ⟨1, by decide!⟩,
    main_closeSocket_once listenFailureEnv (by decide) (by decide) (Or.inl ⟨1, by decide!⟩)⟩

/-- No run of `main` returns `EXIT_SUCCESS`: the path that would return it ends
in the `delete[]` of a pointer inside the buffer. -/
theorem main_never_returns_success (env : Env) :
    (main env).outcome ≠ .returned EXIT_SUCCESS := by
  refine main_cases env (fun r => r.outcome ≠ .returned EXIT_SUCCESS)
    ?_ ?_ ?_ ?_ ?_ ?_ ?_ ?_ ?_ ?_ <;> intros <;> simp [EXIT_SUCCESS, EXIT_FAILURE]

/-- The runs of `main` that return: the exit code is `EXIT_FAILURE`, and they are
those in which the port is invalid, socket creation, database initialisation or
address discovery fails, or `listen` fails after a successful bind. -/
theorem main_returns_failure_iff (env : Env) :
    (∀ c, (main env).outcome = .returned c → c = EXIT_FAILURE) ∧
    ((main env).outcome = .returned EXIT_FAILURE ↔
      (env.port = -1 ∨ env.socketFD = -1 ∨ env.databaseInit = EXIT_FAILURE ∨
        getMachineIPv4Address env.popen env.heap = .ok none ∨
        ((∃ a, getMachineIPv4Address env.popen env.heap = .ok (some a)) ∧
          env.bindServer = 0 ∧ env.listen = -1))) := by
  refine main_cases env
    (fun r => (∀ c, r.outcome = .returned c → c = EXIT_FAILURE) ∧
      (r.outcome = .returned EXIT_FAILURE ↔
        (env.port = -1 ∨ env.socketFD = -1 ∨ env.databaseInit = EXIT_FAILURE ∨
          getMachineIPv4Address env.popen env.heap = .ok none ∨
          ((∃ a, getMachineIPv4Address env.popen env.heap = .ok (some a)) ∧
            env.bindServer = 0 ∧ env.listen = -1))))
    ?_ ?_ ?_ ?_ ?_ ?_ ?_ ?_ ?_ ?_
  · intro h; simp [h]
  · intro _ h; simp [h]
  · intro _ _ h; simp [h]
  · intro f hp hs hd hg; simp [hp, hs, hd, hg]
  · intro hp hs hd hg; simp [hg]
  · intro ptr s f _ _ _ _ hi; exact absurd hi (IPv4Address_some_ne_error _ _ _ _)
  · intro ptr s a hp hs hd hg _ _ hb; simp [hp, hs, hd, hg, hb]
  · intro ptr s a hp hs hd hg _ hb hl; simp [hg, hb, hl]
  · intro ptr s a hp hs hd hg _ _ hb hl hr; simp [hp, hs, hd, hg, hb, hl]
  · intro ptr s a hp hs hd hg _ hb hl hr; simp [hp, hs, hd, hg, hb, hl]

/-- C6, evaluated at the start-up in which every step succeeds and the server
loop returns, and at the one in which only `bindServer` fails: `main` does not
reach `return EXIT_SUCCESS`, nor `return EXIT_FAILURE` after the bind failure,
because the `delete[] machineIPv4Address` just before either `return` is given
a pointer 260 bytes inside the buffer of `exec`, which is undefined behaviour.
So `main` does not return 0 when all steps succeed, although the claim says it
returns 0 exactly then. -/
theorem main_no_exit_code_after_delete :
    (main cleanEnv).trace =
      [.createSocket 3, .newServer 3, .databaseInit, .getMachineIPv4Address (some 260),
        .IPv4Address true, .bindServer 3, .listen 3, .serverInit 3, .closeSocket 3,
        .shutdown 3, .free true, .deleteServer, .deleteArray 260] ∧
    (main cleanEnv).outcome = .fault .invalidDelete ∧
    (main bindFailureEnv).outcome = .fault .invalidDelete ∧
    ¬ (∀ env : Env, (main env).outcome = .returned 0 ↔
        (env.port ≠ -1 ∧ env.socketFD ≠ -1 ∧ env.databaseInit ≠ EXIT_FAILURE ∧
          (∃ a, getMachineIPv4Address env.popen env.heap = .ok (some a)) ∧
          env.bindServer = 0 ∧ env.listen ≠ -1 ∧ env.serverLoopReturns = true)) := by
  have h1 : (main cleanEnv).outcome = .fault .invalidDelete := by decide!
  refine ⟨by decide!, h1, by decide!, fun h => ?_⟩
  have h2 := (h cleanEnv).mpr
    ⟨by decide, by decide, by decide, ⟨(260, bytes "127.0.0.1"), by decide!⟩,
      by decide, by decide, rfl⟩
  rw [h1] at h2
  simp at h2

/-- Every start-up failure of `main` that comes after database initialisation
and returns closes the socket, the first resource acquired, first: the
teardown is not the reverse of the acquisition. -/
theorem main_teardown_socket_first (env : Env) (c : Int)
    (hport : env.port ≠ -1) (hfd : env.socketFD ≠ -1)
    (hdb : env.databaseInit ≠ EXIT_FAILURE)
    (hret : (main env).outcome = .returned c) :
    (released (main env).trace).head? = some .socket ∧
    released (main env).trace ≠ (acquired (main env).trace).reverse := by
  revert hret
  refine main_cases env
    (fun r => r.outcome = .returned c →
      (released r.trace).head? = some .socket ∧
      released r.trace ≠ (acquired r.trace).reverse)
    ?_ ?_ ?_ ?_ ?_ ?_ ?_ ?_ ?_ ?_
  · intro h; exact absurd h hport
  · intro _ h; exact absurd h hfd
  · intro _ _ h; exact absurd h hdb
  · intro f _ _ _ _ h; simp at h
  · intro _ _ _ _ _
    simp [released, acquired, Event.releases, Event.acquires, hfd, List.filterMap_cons]
  · intro ptr s f _ _ _ _ _ h; simp at h
  · intro ptr s a _ _ _ _ _ _ _ h; simp at h
  · intro ptr s a _ _ _ _ _ _ _ _
    cases a <;>
      simp [released, acquired, Event.releases, Event.acquires, hfd, List.filterMap_cons]
  · intro ptr s a _ _ _ _ _ _ _ _ _ h; simp at h
  · intro ptr s a _ _ _ _ _ _ _ _ h; simp at h

/-- C7, evaluated at the start-up in which address discovery returns null and
at the one in which only `listen` fails: `main` returns `EXIT_FAILURE` after
releasing the socket first, in the order socket, server object in the one and
socket, `sockaddr_in`, server object in the other, which is not the reverse of
the order of acquisition, although the claim says every start-up failure path
tears down in reverse order. -/
theorem main_teardown_not_reverse :
    (main noAddressEnv).outcome = .returned EXIT_FAILURE ∧
    acquired (main noAddressEnv).trace = [.socket, .server] ∧
    released (main noAddressEnv).trace = [.socket, .server] ∧
    (main listenFailureEnv).outcome = .returned EXIT_FAILURE ∧
    acquired (main listenFailureEnv).trace =
      [.socket, .server, .addressString, .sockaddr] ∧
    released (main listenFailureEnv).trace = [.socket, .sockaddr, .server] ∧
    ¬ (∀ (env : Env) (c : Int), (main env).outcome = .returned c → c ≠ 0 →
        released (main env).trace = (acquired (main env).trace).reverse) := by
  refine ⟨by decide!, by decide!, by decide!, by decide!, by decide!, by decide!,
    fun h => ?_⟩
  have h1 := h noAddressEnv 1 (by decide!) (by decide)
  revert h1
  decide!

/-- Every run of `main` that reaches a `return` statement after database
initialisation succeeded calls `shutdown` on the descriptor after
`closeSocket`. -/
theorem main_usedAfterClose (env : Env)
    (hport : env.port ≠ -1) (hfd : env.socketFD ≠ -1)
    (hdb : env.databaseInit ≠ EXIT_FAILURE)
    (hend : (∃ c, (main env).outcome = .returned c) ∨
      (main env).outcome = .fault .invalidDelete) :
    usedAfterClose env.socketFD (main env).trace = true := by
  revert hend
  refine main_cases env
    (fun r => ((∃ c, r.outcome = .returned c) ∨ r.outcome = .fault .invalidDelete) →
      usedAfterClose env.socketFD r.trace = true)
    ?_ ?_ ?_ ?_ ?_ ?_ ?_ ?_ ?_ ?_
  · intro h; exact absurd h hport
  · intro _ h; exact absurd h hfd
  · intro _ _ h; exact absurd h hdb
  · intro f _ _ _ hg h
    exfalso
    rcases h with ⟨c, h⟩ | h
    · simp at h
    · simp only [Outcome.fault.injEq] at h
      subst h
      exact getMachineIPv4Address_ne_invalidDelete _ _ hg
  · intro _ _ _ _ _; simp [usedAfterClose]
  · intro ptr s f _ _ _ _ hi _; exact absurd hi (IPv4Address_some_ne_error _ _ _ _)
  · intro ptr s a _ _ _ _ _ _ _ _; simp [usedAfterClose]
  · intro ptr s a _ _ _ _ _ _ _ _; simp [usedAfterClose]
  · intro ptr s a _ _ _ _ _ _ _ _ _ _; simp [usedAfterClose]
  · intro ptr s a _ _ _ _ _ _ _ _ h; simp at h

/-- C8, evaluated at the start-up in which address discovery returns null, and
at the bind-failure, listen-failure and normal shutdown runs: `main` calls
`closeSocket` on the listening descriptor and then `shutdown` on the same
descriptor, although the claim says the descriptor is never used after it is
closed. -/
theorem main_shutdown_after_closeSocket :
    (main noAddressEnv).trace =
      [.createSocket 3, .newServer 3, .databaseInit, .getMachineIPv4Address none,
        .closeSocket 3, .shutdown 3, .deleteServer] ∧
    usedAfterClose 3 (main noAddressEnv).trace = true ∧
    usedAfterClose 3 (main bindFailureEnv).trace = true ∧
    usedAfterClose 3 (main listenFailureEnv).trace = true ∧
    usedAfterClose 3 (main cleanEnv).trace = true := by
  decide!

/-! ## Address discovery (C3, C4, C5) -/

/-- C3 as stated fails: on the output of a host with one Ethernet interface
listed before the loopback interface, `getMachineIPv4Address` returns the
loopback address `127.0.0.1`, while the first non-loopback IPv4 token following
a marker is `10.0.2.15`. -/
theorem getMachineIPv4Address_returns_loopback :
    getMachineIPv4Address (some ifconfigTwo) (fun _ => 0) = .ok (some (260, bytes "127.0.0.1")) ∧
    firstNonLoopbackIPv4 ifconfigTwo = some (bytes "10.0.2.15") ∧
    ¬ (∀ (out : List Nat) (heap : Nat → Nat) (pos : Nat) (addr : List Nat),
        getMachineIPv4Address (some out) heap = .ok (some (pos, addr)) →
        firstNonLoopbackIPv4 out = some addr) := by
  have h1 : getMachineIPv4Address (some ifconfigTwo) (fun _ => 0) =
      .ok (some (260, bytes "127.0.0.1")) := by decide!
  have h2 : firstNonLoopbackIPv4 ifconfigTwo = some (bytes "10.0.2.15") := by decide!
  refine ⟨h1, h2, fun h => ?_⟩
  have h3 := h _ _ _ _ h1
  rw [h2] at h3
  revert h3
  decide

/-- C3 amended: when `getMachineIPv4Address` returns an address, it is the run
of bytes between the end of the second `"inet "` marker in the buffer `exec`
filled and the first space after it; it holds no space and no NUL. When the
output is NUL-free, shorter than the buffer and followed by a NUL, the markers
and the token lie in the command output itself. -/
theorem getMachineIPv4Address_second_marker_token (popen : Option (List Nat))
    (heap : Nat → Nat) (pos : Nat) (addr : List Nat)
    (h : getMachineIPv4Address popen heap = .ok (some (pos, addr))) :
    ∃ out mem total a b rest,
      popen = some out ∧ exec popen heap = .ok (some (mem, total)) ∧
      mem = a ++ inetMarker ++ b ++ inetMarker ++ addr ++ 32 :: rest ∧
      pos = (a ++ inetMarker ++ b ++ inetMarker).length ∧
      32 ∉ addr ∧ 0 ∉ a ++ inetMarker ++ b ++ inetMarker ++ addr ∧
      (∀ k, k < a.length → ¬ inetMarker <+: mem.drop k) ∧
      (∀ k, a.length < k → k < a.length + 5 + b.length → ¬ inetMarker <+: mem.drop k) ∧
      (0 ∉ out → out.length < RESULT_SIZE → heap out.length = 0 →
        ∃ tail, out = a ++ inetMarker ++ b ++ inetMarker ++ addr ++ 32 :: tail) := by
  obtain ⟨out, mem, total, p1, p2, e, hp, hx, h1, h2, h3, hpos, haddr⟩ :=
    getMachineIPv4Address_some_inv popen heap pos addr h
  obtain ⟨a, b, addr', rest, hdec, hla, hlb, haddr', hsp, ha, hb, hz, hm1, hm2⟩ :=
    scan_decomp mem p1 p2 e h1 h2 h3
  have hm0 : (0 : Nat) ∉ inetMarker := by decide
  have hm5 : inetMarker.length = 5 := rfl
  have heq : addr = addr' := by rw [haddr, haddr']
  subst heq
  have hnz : (0 : Nat) ∉ a ++ inetMarker ++ b ++ inetMarker ++ addr := by
    simp only [List.mem_append, not_or]
    exact ⟨⟨⟨⟨ha, hm0⟩, hb⟩, hm0⟩, hz⟩
  refine ⟨out, mem, total, a, b, rest, hp, hx, hdec, ?_, hsp, hnz, hm1, hm2, ?_⟩
  · simp only [List.length_append, hm5]; omega
  · intro hz0 hlen hterm
    subst hp
    rw [exec_terminated out heap hz0 hlen hterm] at hx
    simp only [Except.ok.injEq, Option.some.injEq, Prod.mk.injEq] at hx
    have hpre : a ++ inetMarker ++ b ++ inetMarker ++ addr ++ [32] <+:
        out ++ 0 :: (newResult heap).drop (out.length + 1) := by
      rw [hx.1]
      refine ⟨rest, ?_⟩
      conv_rhs => rw [hdec]
      simp
    have hnz' : (0 : Nat) ∉ a ++ inetMarker ++ b ++ inetMarker ++ addr ++ [32] := by
      rw [List.mem_append, not_or]
      exact ⟨hnz, by simp⟩
    obtain ⟨t, ht⟩ := nulFree_prefix _ _ _ hnz' hpre
    exact ⟨t, by rw [← ht]; simp⟩

/-- Instance at the two-interface output in a zero-filled buffer. -/
theorem getMachineIPv4Address_second_marker_token_witness :
    getMachineIPv4Address (some ifconfigTwo) (fun _ => 0) =
      .ok (some (260, bytes "127.0.0.1")) ∧
    ∃ out mem total a b rest,
      some ifconfigTwo = some out ∧
      exec (some ifconfigTwo) (fun _ => 0) = .ok (some (mem, total)) ∧
      mem = a ++ inetMarker ++ b ++ inetMarker ++ bytes "127.0.0.1" ++ 32 :: rest ∧
      260 = (a ++ inetMarker ++ b ++ inetMarker).length ∧
      32 ∉ bytes "127.0.0.1" ∧ 0 ∉ a ++ inetMarker ++ b ++ inetMarker ++ bytes "127.0.0.1" ∧
      (∀ k, k < a.length → ¬ inetMarker <+: mem.drop k) ∧
      (∀ k, a.length < k → k < a.length + 5 + b.length → ¬ inetMarker <+: mem.drop k) ∧
      (0 ∉ out → out.length < RESULT_SIZE → (fun _ => 0) out.length = 0 →
        ∃ tail, out = a ++ inetMarker ++ b ++ inetMarker ++ bytes "127.0.0.1" ++ 32 :: tail) :=
  ⟨by decide!,
    getMachineIPv4Address_second_marker_token (some ifconfigTwo) (fun _ => 0) 260
      (bytes "127.0.0.1") (by decide!)⟩

/-- C4 as stated fails: on output whose markers are followed only by a loopback
and a link-local address, `getMachineIPv4Address` returns the link-local
address instead of the null result. -/
theorem getMachineIPv4Address_returns_link_local :
    getMachineIPv4Address (some ifconfigNoRoutable) (fun _ => 0) =
      .ok (some (159, bytes "169.254.7.12")) ∧
    (markerTokens ifconfigNoRoutable).all (fun t => isLoopback t || isLinkLocal t) = true ∧
    ¬ (∀ (out : List Nat) (heap : Nat → Nat),
        (out = [] ∨ (markerTokens out).all (fun t => !isIPv4Token t) = true ∨
          (markerTokens out).all (fun t => isLoopback t || isLinkLocal t) = true) →
        getMachineIPv4Address (some out) heap = .ok none) := by
  have h1 : getMachineIPv4Address (some ifconfigNoRoutable) (fun _ => 0) =
      .ok (some (159, bytes "169.254.7.12")) := by decide!
  have h2 : (markerTokens ifconfigNoRoutable).all (fun t => isLoopback t || isLinkLocal t) =
      true := by decide!
  refine ⟨h1, h2, fun h => ?_⟩
  have h3 := h ifconfigNoRoutable (fun _ => 0) (Or.inr (Or.inr h2))
  rw [h1] at h3
  simp at h3

/-- C4 amended: for NUL-free output shorter than the buffer and followed by a
NUL in the buffer, `getMachineIPv4Address` returns the null result whenever the
output has no space after a second `"inet "` marker, in particular when it is
empty or holds fewer than two markers. -/
theorem getMachineIPv4Address_null_without_second_token (out : List Nat) (heap : Nat → Nat)
    (hz : 0 ∉ out) (hlen : out.length < RESULT_SIZE) (hterm : heap out.length = 0)
    (hno : ∀ a b c, out = a ++ inetMarker ++ b ++ inetMarker ++ c → 32 ∉ c) :
    getMachineIPv4Address (some out) heap = .ok none := by
  unfold getMachineIPv4Address
  rw [exec_terminated out heap hz hlen hterm]
  exact scan_null _ out _ rfl hno

/-- Instance at empty output in a zero-filled buffer. -/
theorem getMachineIPv4Address_null_without_second_token_witness :
    (0 ∉ ([] : List Nat)) ∧ ([] : List Nat).length < RESULT_SIZE ∧
    (fun _ => 0 : Nat → Nat) ([] : List Nat).length = 0 ∧
    (∀ a b c, ([] : List Nat) = a ++ inetMarker ++ b ++ inetMarker ++ c → 32 ∉ c) ∧
    getMachineIPv4Address (some []) (fun _ => 0) = .ok none :=
  ⟨by simp, by decide, rfl, fun a b c h => by simp [inetMarker] at h,
    getMachineIPv4Address_null_without_second_token [] (fun _ => 0) (by simp) (by decide) rfl
      (fun a b c h => by simp [inetMarker] at h)⟩

/-- C5, evaluated at its failing inputs: when the command cannot be started
`exec` returns null and `strstr` reads through the null pointer; when the
command prints nothing the scan reads bytes `exec` never wrote, so that the
result follows the previous contents of the allocation: a read past its end, an
address found in stale text, or null. The claim says no such access happens. -/
theorem getMachineIPv4Address_invalid_access :
    (∀ heap, getMachineIPv4Address none heap = .error .nullDeref) ∧
    getMachineIPv4Address (some []) (fun _ => 65) = .error .readPastBuffer ∧
    getMachineIPv4Address (some []) staleHeap = .ok (some (19, bytes "10.0.0.9")) ∧
    getMachineIPv4Address (some []) (fun _ => 0) = .ok none := by
  refine ⟨fun heap => rfl, ?_, ?_, ?_⟩
  · decide!
  · decide!
  · decide!

/-! ## The result buffer of `exec` (C9) and `IPv4Address` (C10) -/

/-- C9, evaluated at an output of 4097 bytes: `exec` copies past the end of its
4096-byte result buffer, although the claim says `totalSize` plus the chunk
length never exceeds 4096. -/
theorem exec_overflows_result (heap : Nat → Nat) :
    exec (some (List.replicate 4097 65)) heap = .error .heapOverflow := by
  have hz : (0 : Nat) ∉ List.replicate 4097 65 := by
    rw [List.mem_replicate]
    omega
  rw [exec_nulFree _ _ hz, List.length_replicate, if_neg (by decide)]

/-- The fields `IPv4Address` sets: family and port always; the address when the
string is empty, is `INADDR_ANY` or parses; otherwise the address keeps the
initial contents of the allocation. -/
theorem IPv4Address_fields (g : SockaddrIn) (s : List Nat) (port : Int) :
    ∃ a, IPv4Address (some g) (some s) port = .ok (some a) ∧
      a.sin_family = AF_INET ∧ a.sin_port = htons port ∧
      ((strlen s = 0 ∨
          strcasecmp (s.takeWhile (fun c => c != 0)) (bytes "INADDR_ANY") = 0) →
        a.sin_addr = INADDR_ANY) ∧
      (¬ (strlen s = 0 ∨
          strcasecmp (s.takeWhile (fun c => c != 0)) (bytes "INADDR_ANY") = 0) →
        (∀ v, inet_pton s = some v → a.sin_addr = v) ∧
        (inet_pton s = none → a.sin_addr = g.sin_addr)) := by
  unfold IPv4Address
  simp only
  by_cases hc : strlen s = 0 ∨
      strcasecmp (s.takeWhile (fun c => c != 0)) (bytes "INADDR_ANY") = 0
  · rw [if_pos hc]
    exact ⟨_, rfl, rfl, rfl, fun _ => rfl, fun h => absurd hc h⟩
  · rw [if_neg hc]
    cases hp : inet_pton s with
    | none =>
      exact ⟨_, rfl, rfl, rfl, fun h => absurd h hc, fun _ => ⟨fun v hv => by simp at hv, fun _ => rfl⟩⟩
    | some v =>
      refine ⟨_, rfl, rfl, rfl, fun h => absurd h hc, fun _ => ⟨fun w hw => ?_, fun h => by simp at h⟩⟩
      simp only [Option.some.injEq] at hw
      exact hw

/-- C10, evaluated at the string `addr:192.168.1.7`, which `inet_pton`
rejects: the returned `sin_addr` is whatever the allocation held, so two calls
with equal arguments return different address fields, although the claim says
`sin_addr` depends only on `ipAddress`. -/
theorem IPv4Address_keeps_uninitialised_address :
    (∀ (g : SockaddrIn) (port : Int),
      IPv4Address (some g) (some (bytes "addr:192.168.1.7")) port =
        .ok (some ⟨AF_INET, htons port, g.sin_addr⟩)) ∧
    IPv4Address (some ⟨0, 0, 0⟩) (some (bytes "addr:192.168.1.7")) 8080 =
      .ok (some ⟨2, 36895, 0⟩) ∧
    IPv4Address (some ⟨0, 0, 16777343⟩) (some (bytes "addr:192.168.1.7")) 8080 =
      .ok (some ⟨2, 36895, 16777343⟩) := by
  refine ⟨fun g port => ?_, by decide!, by decide!⟩
  have h1 : ¬ (strlen (bytes "addr:192.168.1.7") = 0 ∨
      strcasecmp ((bytes "addr:192.168.1.7").takeWhile (fun c => c != 0))
        (bytes "INADDR_ANY") = 0) := by decide!
  have h2 : inet_pton (bytes "addr:192.168.1.7") = none := by decide!
  simp only [IPv4Address, h1, h2, if_false]

end Pinnacle
